import Mathlib

/-!
Verification of the pipeline execution engine of
`lexical_selection_training.py` (apertium-lexical-training).

The development shallowly embeds the script's pipe-chain executor
(`pipe`), the confirmation prompt (`query`), the training-line
clamping logic, and stage/effect traces of the two training recipes,
and proves the specified properties about them.
-/

namespace LexTrain

/-- A process specification: an executable name plus its ordered
argument list, as passed to `Popen` (Python `List[str]`). -/
abbrev ProcSpec := List String

/-- Where a child process standard stream is wired, mirroring the
arguments the script passes to `Popen`:
`firstin` is the caller-supplied `firstin` input source, `lastout` the
caller-supplied `lastout` sink, `internalPipe` is `stdout=PIPE`,
`pipeOf i` is the read end of stage `i`'s stdout pipe
(`procs[i-1].stdout` in the source), `sharedErr` is the caller-supplied
`stderr` log stream, and `diagErr` is the interpreter's own
`sys.stderr`. -/
inductive StdStream where
  | firstin
  | lastout
  | internalPipe
  | pipeOf (i : Nat)
  | sharedErr
  | diagErr
deriving DecidableEq

/-- A started child process: its command and the wiring of its three
standard streams. -/
structure Proc where
  cmd : ProcSpec
  stdin : StdStream
  stdout : StdStream
  stderr : StdStream
deriving DecidableEq

/-- Python truthiness of the optional `expected_lines` argument:
`None` and `0` are falsy, every other int is truthy
(the guard `if expected_lines and shutil.which("pv")`). -/
def expectedTruthy : Option Nat → Bool
  | none => false
  | some n => n != 0

/-- The monitoring stage appended by `pipe`:
`['pv', '-l', '-s', str(expected_lines)]`. -/
def pvSpec (n : Nat) : ProcSpec := ["pv", "-l", "-s", toString n]

/-- Whether `pipe` appends the monitoring stage: the expected-line
count is truthy and the `pv` executable is discoverable
(`shutil.which("pv")`). -/
def monitorAppended (pvAvail : Bool) (expected : Option Nat) : Bool :=
  expectedTruthy expected && pvAvail

/-- The effective command list after the optional in-place extension
`cmds += [['pv', '-l', '-s', str(expected_lines)]]`.  Reached only
when `cmds` is non-empty (the empty case returns first). -/
def effectiveCmds (cmds : List ProcSpec) (pvAvail : Bool) :
    Option Nat → List ProcSpec
  | none => cmds
  | some n => if n != 0 && pvAvail then cmds ++ [pvSpec n] else cmds

/-- The state of the caller's `cmds` list object after `pipe` returns.
Python's `cmds += [...]` is an in-place `list.extend` on the very list
object the caller passed, so when the monitor is appended the caller's
list is mutated; when `cmds == []` the function returns before the
extension. -/
def callerCmdsAfter (cmds : List ProcSpec) (pvAvail : Bool)
    (expected : Option Nat) : List ProcSpec :=
  if cmds = [] then cmds else effectiveCmds cmds pvAvail expected

/-- The chain of processes started by `pipe cmds firstin lastout stderr
expected_lines`: for the empty list no process is created; otherwise
stage `i` of the (possibly monitor-extended) list gets
`stdin = procs[i-1].stdout if i > 0 else firstin`,
`stdout = PIPE if i+1 < len(cmds) else lastout`, and
`stderr = stderr if i+1 < len(cmds) else lasterr` where `lasterr` is
`sys.stderr` when the monitor was appended and the shared `stderr`
otherwise. -/
def chainProcs (cmds : List ProcSpec) (pvAvail : Bool)
    (expected : Option Nat) : List Proc :=
  if cmds = [] then []
  else
    let eff := effectiveCmds cmds pvAvail expected
    let lasterr : StdStream :=
      if monitorAppended pvAvail expected then .diagErr else .sharedErr
    (List.range eff.length).map fun i =>
      { cmd := eff.getD i []
        stdin := if 0 < i then .pipeOf (i - 1) else .firstin
        stdout := if i + 1 < eff.length then .internalPipe else .lastout
        stderr := if i + 1 < eff.length then .sharedErr else lasterr }

/-- The handle `pipe` returns: `None` for the empty command list,
otherwise `procs[-1]`, the last started process of the (possibly
extended) chain. -/
def pipeHandle (cmds : List ProcSpec) (pvAvail : Bool)
    (expected : Option Nat) : Option Nat :=
  if cmds = [] then none
  else some ((effectiveCmds cmds pvAvail expected).length - 1)

theorem effectiveCmds_length (cmds : List ProcSpec) (pvAvail : Bool)
    (expected : Option Nat) :
    (effectiveCmds cmds pvAvail expected).length =
      cmds.length + (if monitorAppended pvAvail expected then 1 else 0) := by
  cases expected with
  | none => simp [effectiveCmds, monitorAppended, expectedTruthy]
  | some n =>
    by_cases h : (n != 0 && pvAvail) = true <;>
      simp [effectiveCmds, monitorAppended, expectedTruthy, h]

theorem chainProcs_length (cmds : List ProcSpec) (pvAvail : Bool)
    (expected : Option Nat) (h : cmds ≠ []) :
    (chainProcs cmds pvAvail expected).length =
      cmds.length + (if monitorAppended pvAvail expected then 1 else 0) := by
  simp [chainProcs, h, effectiveCmds_length]

theorem effectiveCmds_eq_append (cmds : List ProcSpec) (pvAvail : Bool)
    (expected : Option Nat) :
    effectiveCmds cmds pvAvail expected =
      cmds ++ (if monitorAppended pvAvail expected
               then [pvSpec (expected.getD 0)] else []) := by
  cases expected with
  | none => simp [effectiveCmds, monitorAppended, expectedTruthy]
  | some n =>
    by_cases h : (n != 0 && pvAvail) = true <;>
      simp [effectiveCmds, monitorAppended, expectedTruthy, h]

theorem chainProcs_get (cmds : List ProcSpec) (pvAvail : Bool)
    (expected : Option Nat) (hne : cmds ≠ []) (i : Nat)
    (h : i < (chainProcs cmds pvAvail expected).length) :
    (chainProcs cmds pvAvail expected).get ⟨i, h⟩ =
      { cmd := (effectiveCmds cmds pvAvail expected).getD i []
        stdin := if 0 < i then .pipeOf (i - 1) else .firstin
        stdout := if i + 1 < (effectiveCmds cmds pvAvail expected).length
                  then .internalPipe else .lastout
        stderr := if i + 1 < (effectiveCmds cmds pvAvail expected).length
                  then .sharedErr
                  else if monitorAppended pvAvail expected
                       then .diagErr else .sharedErr } := by
  simp [chainProcs, hne]

theorem chainProcs_cmd (cmds : List ProcSpec) (pvAvail : Bool)
    (expected : Option Nat) (hne : cmds ≠ []) (i : Nat)
    (h : i < (chainProcs cmds pvAvail expected).length) :
    ((chainProcs cmds pvAvail expected).get ⟨i, h⟩).cmd =
      (effectiveCmds cmds pvAvail expected).getD i [] := by
  rw [chainProcs_get cmds pvAvail expected hne i h]

theorem chainProcs_stdin (cmds : List ProcSpec) (pvAvail : Bool)
    (expected : Option Nat) (hne : cmds ≠ []) (i : Nat)
    (h : i < (chainProcs cmds pvAvail expected).length) :
    ((chainProcs cmds pvAvail expected).get ⟨i, h⟩).stdin =
      if 0 < i then StdStream.pipeOf (i - 1) else StdStream.firstin := by
  rw [chainProcs_get cmds pvAvail expected hne i h]

theorem chainProcs_stdout (cmds : List ProcSpec) (pvAvail : Bool)
    (expected : Option Nat) (hne : cmds ≠ []) (i : Nat)
    (h : i < (chainProcs cmds pvAvail expected).length) :
    ((chainProcs cmds pvAvail expected).get ⟨i, h⟩).stdout =
      if i + 1 < (effectiveCmds cmds pvAvail expected).length
      then StdStream.internalPipe else StdStream.lastout := by
  rw [chainProcs_get cmds pvAvail expected hne i h]

theorem chainProcs_stderr_at (cmds : List ProcSpec) (pvAvail : Bool)
    (expected : Option Nat) (hne : cmds ≠ []) (i : Nat)
    (h : i < (chainProcs cmds pvAvail expected).length) :
    ((chainProcs cmds pvAvail expected).get ⟨i, h⟩).stderr =
      if i + 1 < (effectiveCmds cmds pvAvail expected).length
      then StdStream.sharedErr
      else if monitorAppended pvAvail expected
           then StdStream.diagErr else StdStream.sharedErr := by
  rw [chainProcs_get cmds pvAvail expected hne i h]

theorem chainProcs_map_cmd (cmds : List ProcSpec) (pvAvail : Bool)
    (expected : Option Nat) (hne : cmds ≠ []) :
    (chainProcs cmds pvAvail expected).map Proc.cmd =
      effectiveCmds cmds pvAvail expected := by
  apply List.ext_getElem
  · simp [chainProcs, hne]
  · intro i h1 h2
    have := chainProcs_get cmds pvAvail expected hne i (by simpa using h1)
    simp only [List.getElem_map]
    rw [List.get_eq_getElem] at this
    rw [this]
    exact (List.getD_eq_getElem _ _ h2)

theorem chainProcs_map_stderr (cmds : List ProcSpec) (pvAvail : Bool)
    (expected : Option Nat) (hne : cmds ≠ []) :
    (chainProcs cmds pvAvail expected).map Proc.stderr =
      List.replicate cmds.length StdStream.sharedErr ++
        (if monitorAppended pvAvail expected
         then [StdStream.diagErr] else []) := by
  have hlen := effectiveCmds_length cmds pvAvail expected
  apply List.ext_getElem
  · by_cases hm : monitorAppended pvAvail expected <;>
      simp [chainProcs, hne, hlen, hm]
  · intro i h1 h2
    have hi : i < (chainProcs cmds pvAvail expected).length := by
      simpa using h1
    have hg := chainProcs_stderr_at cmds pvAvail expected hne i hi
    rw [List.get_eq_getElem] at hg
    simp only [List.getElem_map]
    rw [hg]
    have hieff : i < (effectiveCmds cmds pvAvail expected).length := by
      simpa [chainProcs, hne] using hi
    rw [List.getElem_append]
    by_cases hm : monitorAppended pvAvail expected
    · have hl : (effectiveCmds cmds pvAvail expected).length =
          cmds.length + 1 := by simp [hlen, hm]
      by_cases hlt : i < cmds.length
      · rw [if_pos (show i + 1 <
            (effectiveCmds cmds pvAvail expected).length by omega)]
        rw [dif_pos (show i <
            (List.replicate cmds.length StdStream.sharedErr).length by
          simpa using hlt)]
        simp
      · have hieq : i = cmds.length := by omega
        rw [if_neg (show ¬ i + 1 <
            (effectiveCmds cmds pvAvail expected).length by omega)]
        rw [if_pos hm]
        rw [dif_neg (show ¬ i <
            (List.replicate cmds.length StdStream.sharedErr).length by
          simpa using hlt)]
        subst hieq
        simp [hm]
    · have hl : (effectiveCmds cmds pvAvail expected).length =
          cmds.length := by simp [hlen, hm]
      have hlt : i < cmds.length := by omega
      rw [dif_pos (show i <
          (List.replicate cmds.length StdStream.sharedErr).length by
        simpa using hlt)]
      by_cases hlast : i + 1 < (effectiveCmds cmds pvAvail expected).length
      · rw [if_pos hlast]; simp
      · rw [if_neg hlast, if_neg hm]; simp

theorem chainProcs_length_eff (cmds : List ProcSpec) (pvAvail : Bool)
    (expected : Option Nat) (hne : cmds ≠ []) :
    (chainProcs cmds pvAvail expected).length =
      (effectiveCmds cmds pvAvail expected).length := by
  simp [chainProcs, hne]

/-- C4: for the empty process-spec sequence, pipe returns no handle and
creates no process, whatever the monitor availability and expected-item
count are (the supplied input source, output sink and error sink are
never wired to anything, and the caller's list is left untouched). -/
theorem pipe_empty_is_noop (pvAvail : Bool) (expected : Option Nat) :
    pipeHandle [] pvAvail expected = none ∧
    chainProcs [] pvAvail expected = [] ∧
    callerCmdsAfter [] pvAvail expected = [] := by
  refine ⟨by simp [pipeHandle], by simp [chainProcs], by simp [callerCmdsAfter]⟩

/-- C3: for every non-empty process-spec sequence, stage 0 reads the
supplied input source and stage i reads stage i-1's standard output
pipe; every stage except the last writes to an internal pipe and the
last stage writes to the supplied output sink; the started processes
are exactly the (possibly monitor-extended) command list, all created
before the call returns; and the returned handle is the last started
process of that chain. -/
theorem pipe_chain_wiring (cmds : List ProcSpec) (pvAvail : Bool)
    (expected : Option Nat) (hne : cmds ≠ []) :
    ((chainProcs cmds pvAvail expected).length =
        cmds.length + (if monitorAppended pvAvail expected then 1 else 0)) ∧
    (∀ i, ∀ h : i < (chainProcs cmds pvAvail expected).length,
        ((chainProcs cmds pvAvail expected).get ⟨i, h⟩).stdin =
          if i = 0 then StdStream.firstin else StdStream.pipeOf (i - 1)) ∧
    (∀ i, ∀ h : i < (chainProcs cmds pvAvail expected).length,
        ((chainProcs cmds pvAvail expected).get ⟨i, h⟩).stdout =
          if i + 1 < (chainProcs cmds pvAvail expected).length
          then StdStream.internalPipe else StdStream.lastout) ∧
    ((chainProcs cmds pvAvail expected).map Proc.cmd =
        effectiveCmds cmds pvAvail expected) ∧
    (pipeHandle cmds pvAvail expected =
        some ((chainProcs cmds pvAvail expected).length - 1)) := by
  refine ⟨chainProcs_length cmds pvAvail expected hne, ?_, ?_, ?_, ?_⟩
  · intro i h
    rw [chainProcs_stdin cmds pvAvail expected hne i h]
    by_cases h0 : i = 0
    · simp [h0]
    · simp [h0, Nat.pos_of_ne_zero h0]
  · intro i h
    rw [chainProcs_stdout cmds pvAvail expected hne i h,
      chainProcs_length_eff cmds pvAvail expected hne]
  · exact chainProcs_map_cmd cmds pvAvail expected hne
  · rw [pipeHandle, if_neg hne, chainProcs_length_eff cmds pvAvail expected hne]

/-- C3 witness: the wiring property instantiated at the docstring's
example chain with a monitor appended. -/
theorem pipe_chain_wiring_witness :
    ([["yes", "olleh"], ["head", "-2"], ["rev"]] : List ProcSpec) ≠ [] ∧
    (((chainProcs [["yes", "olleh"], ["head", "-2"], ["rev"]] true
          (some 2)).length =
        3 + (if monitorAppended true (some 2) then 1 else 0)) ∧
     (∀ i, ∀ h : i < (chainProcs [["yes", "olleh"], ["head", "-2"], ["rev"]]
          true (some 2)).length,
        ((chainProcs [["yes", "olleh"], ["head", "-2"], ["rev"]] true
            (some 2)).get ⟨i, h⟩).stdin =
          if i = 0 then StdStream.firstin else StdStream.pipeOf (i - 1)) ∧
     (∀ i, ∀ h : i < (chainProcs [["yes", "olleh"], ["head", "-2"], ["rev"]]
          true (some 2)).length,
        ((chainProcs [["yes", "olleh"], ["head", "-2"], ["rev"]] true
            (some 2)).get ⟨i, h⟩).stdout =
          if i + 1 < (chainProcs [["yes", "olleh"], ["head", "-2"], ["rev"]]
              true (some 2)).length
          then StdStream.internalPipe else StdStream.lastout) ∧
     ((chainProcs [["yes", "olleh"], ["head", "-2"], ["rev"]] true
          (some 2)).map Proc.cmd =
        effectiveCmds [["yes", "olleh"], ["head", "-2"], ["rev"]] true
          (some 2)) ∧
     (pipeHandle [["yes", "olleh"], ["head", "-2"], ["rev"]] true (some 2) =
        some ((chainProcs [["yes", "olleh"], ["head", "-2"], ["rev"]] true
            (some 2)).length - 1))) :=
  ⟨by decide,
   pipe_chain_wiring [["yes", "olleh"], ["head", "-2"], ["rev"]] true
     (some 2) (by decide)⟩

/-- C5: every stage of the original command list writes its errors to
the shared error sink, and the appended monitoring stage (when present)
writes its errors to the interpreter's own diagnostic stream; hence the
multiset of stages writing to the shared error sink is exactly the
original command list whether or not the monitor is appended. -/
theorem pipe_monitor_stderr_isolated (cmds : List ProcSpec) (pvAvail : Bool)
    (expected : Option Nat) (hne : cmds ≠ []) :
    ((chainProcs cmds pvAvail expected).map Proc.stderr =
      List.replicate cmds.length StdStream.sharedErr ++
        (if monitorAppended pvAvail expected
         then [StdStream.diagErr] else [])) ∧
    (((chainProcs cmds pvAvail expected).map Proc.stderr).count
        StdStream.sharedErr = cmds.length) := by
  have hmap := chainProcs_map_stderr cmds pvAvail expected hne
  refine ⟨hmap, ?_⟩
  rw [hmap, List.count_append, List.count_replicate_self]
  by_cases hm : monitorAppended pvAvail expected <;> simp [hm]

/-- C5 witness: the error-routing property instantiated at a concrete
two-stage chain with the monitor appended. -/
theorem pipe_monitor_stderr_isolated_witness :
    ([["head", "-2"], ["rev"]] : List ProcSpec) ≠ [] ∧
    (((chainProcs [["head", "-2"], ["rev"]] true (some 7)).map Proc.stderr =
      List.replicate 2 StdStream.sharedErr ++
        (if monitorAppended true (some 7)
         then [StdStream.diagErr] else [])) ∧
     (((chainProcs [["head", "-2"], ["rev"]] true (some 7)).map
          Proc.stderr).count StdStream.sharedErr = 2)) :=
  ⟨by decide,
   pipe_monitor_stderr_isolated [["head", "-2"], ["rev"]] true (some 7)
     (by decide)⟩

/-- C2 counterexample: with the monitoring executable available and an
expected-item count of 5, the caller's command-list object after the
call differs from the list that was passed in, because the in-place
extension appended the monitoring stage to it. -/
theorem pipe_mutates_caller_cmds :
    callerCmdsAfter [["cat"]] true (some 5) ≠ [["cat"]] := by decide

/-- C2 (amended): when the monitoring executable is discoverable and a
truthy expected-item count is supplied, pipe extends the caller's
process-spec sequence in place, so after the call the caller's list is
its old value with the monitoring stage appended (the original stages
are preserved as an unchanged initial segment, and the extended chain's
last stage still delivers its output to the supplied output sink); when
no monitor is appended the caller's list is unchanged. -/
theorem pipe_caller_cmds_after_extended (cmds : List ProcSpec)
    (pvAvail : Bool) (expected : Option Nat) (hne : cmds ≠ []) :
    (callerCmdsAfter cmds pvAvail expected =
      cmds ++ (if monitorAppended pvAvail expected
               then [pvSpec (expected.getD 0)] else [])) ∧
    (monitorAppended pvAvail expected = false →
      callerCmdsAfter cmds pvAvail expected = cmds) ∧
    (∀ h : chainProcs cmds pvAvail expected ≠ [],
      ((chainProcs cmds pvAvail expected).getLast h).stdout =
        StdStream.lastout) := by
  refine ⟨?_, ?_, ?_⟩
  · rw [callerCmdsAfter, if_neg hne, effectiveCmds_eq_append]
  · intro hm
    rw [callerCmdsAfter, if_neg hne, effectiveCmds_eq_append, hm]
    simp
  · intro h
    have hlen := chainProcs_length_eff cmds pvAvail expected hne
    have hpos : 0 < (chainProcs cmds pvAvail expected).length :=
      List.length_pos.mpr h
    rw [List.getLast_eq_get]
    rw [chainProcs_stdout cmds pvAvail expected hne _ (by omega)]
    rw [if_neg (by omega)]

/-- C2 witness: the amended property instantiated at a singleton chain
with the monitor appended. -/
theorem pipe_caller_cmds_after_extended_witness :
    ([["cat"]] : List ProcSpec) ≠ [] ∧
    ((callerCmdsAfter [["cat"]] true (some 5) =
      [["cat"]] ++ (if monitorAppended true (some 5)
                    then [pvSpec ((some 5).getD 0)] else [])) ∧
     (monitorAppended true (some 5) = false →
      callerCmdsAfter [["cat"]] true (some 5) = [["cat"]]) ∧
     (∀ h : chainProcs [["cat"]] true (some 5) ≠ [],
      ((chainProcs [["cat"]] true (some 5)).getLast h).stdout =
        StdStream.lastout)) :=
  ⟨by decide, pipe_caller_cmds_after_extended [["cat"]] true (some 5)
    (by decide)⟩

/-- ASCII lowercasing of a string, character by character, as
`input().lower()` performs on the prompt answers considered here. -/
def strLower (s : String) : String := String.mk (s.data.map Char.toLower)

/-- Lookup in the `valid` dictionary of `query`:
`{"yes": True, "y": True, "ye": True, "no": False, "n": False}`;
`none` models a key that is absent (`choice in valid` being false). -/
def queryValid : String → Option Bool
  | "yes" => some true
  | "y" => some true
  | "ye" => some true
  | "no" => some false
  | "n" => some false
  | _ => none

/-- Normalization of the `default` argument performed before the loop:
`None` stays `None` (prompt `[y/n]`), `"no"` stays `"no"` (prompt
`[y/N]`), and any other value is replaced by `"yes"` in the `else`
branch that also selects the `[Y/n]` prompt. -/
def normalizeDefault : Option String → Option String
  | none => none
  | some d => if d = "no" then some "no" else some "yes"

/-- One run of the `while True` loop of `query`, driven by the queued
stdin lines, one line per iteration: the read line is lowercased; an
empty line with a non-None default returns `valid[default]`; a line
that is a key of `valid` returns its value; any other line prints the
usage hint and iterates.  The result pairs the returned answer with the
number of usage-hint reprompts printed before resolution; `none` models
stdin running out before the call resolves. -/
def queryLoop (d : Option String) : List String → Option (Bool × Nat)
  | [] => none
  | c :: rest =>
    if d.isSome && (strLower c == "") then
      (d.bind queryValid).map fun b => (b, 0)
    else
      match queryValid (strLower c) with
      | some b => some (b, 0)
      | none => (queryLoop d rest).map fun r => (r.1, r.2 + 1)

theorem queryLoop_cons_key (d : Option String) (c : String)
    (rest : List String) (b : Bool)
    (hv : queryValid (strLower c) = some b) :
    queryLoop d (c :: rest) = some (b, 0) := by
  have hne : (strLower c == "") = false := by
    cases hbe : strLower c == ""
    · rfl
    · have heq : strLower c = "" := eq_of_beq hbe
      rw [heq] at hv
      exact Option.noConfusion hv
  simp [queryLoop, hne, hv]

theorem queryLoop_cons_invalid (d : Option String) (c : String)
    (rest : List String)
    (hv : queryValid (strLower c) = none)
    (hne : (strLower c == "") = false) :
    queryLoop d (c :: rest) =
      (queryLoop d rest).map fun r => (r.1, r.2 + 1) := by
  simp [queryLoop, hne, hv]

/-- The call `query question default`, driven by a queued list of stdin
lines (the question string only affects the prompt text, not the
result). -/
def queryRun (default : Option String) (inputs : List String) :
    Option (Bool × Nat) :=
  queryLoop (normalizeDefault default) inputs

/-- C6: case-insensitive `yes`, `y`, `ye` resolve to proceed and `no`,
`n` resolve to decline, both with no reprompt; an empty first line with
default `"yes"` resolves to proceed with no reprompt; and a first line
of `maybe` forces at least one usage-hint reprompt before the call can
resolve. -/
theorem query_prompt_behavior :
    (∀ (d : Option String) (s : String) (rest : List String),
        (strLower s = "yes" ∨ strLower s = "y" ∨ strLower s = "ye") →
        queryRun d (s :: rest) = some (true, 0)) ∧
    (∀ (d : Option String) (s : String) (rest : List String),
        (strLower s = "no" ∨ strLower s = "n") →
        queryRun d (s :: rest) = some (false, 0)) ∧
    (∀ rest : List String,
        queryRun (some "yes") ("" :: rest) = some (true, 0)) ∧
    (∀ (d : Option String) (rest : List String) (b : Bool) (k : Nat),
        queryRun d ("maybe" :: rest) = some (b, k) → 1 ≤ k) := by
  refine ⟨?_, ?_, ?_, ?_⟩
  · intro d s rest h
    rcases h with h | h | h <;>
      exact queryLoop_cons_key (normalizeDefault d) s rest true (by rw [h]; rfl)
  · intro d s rest h
    rcases h with h | h <;>
      exact queryLoop_cons_key (normalizeDefault d) s rest false (by rw [h]; rfl)
  · intro rest
    rfl
  · intro d rest b k h
    have h2 : (queryLoop (normalizeDefault d) ("maybe" :: rest)) =
        (queryLoop (normalizeDefault d) rest).map
          fun r => (r.1, r.2 + 1) :=
      queryLoop_cons_invalid (normalizeDefault d) "maybe" rest
        (by decide) (by decide)
    rw [queryRun, h2] at h
    cases hopt : queryLoop (normalizeDefault d) rest with
    | none =>
      rw [hopt] at h
      exact absurd h (by simp)
    | some r =>
      rw [hopt] at h
      simp at h
      omega

/-- C6 witness: the prompt behavior at concrete inputs: an uppercase
`YES`, a decline `n`, an empty line under the `"yes"` default, and a
`maybe` followed by `y` which resolves after exactly one reprompt. -/
theorem query_prompt_behavior_witness :
    queryRun (some "yes") ["YES"] = some (true, 0) ∧
    queryRun (some "yes") ["n"] = some (false, 0) ∧
    queryRun (some "yes") [""] = some (true, 0) ∧
    (queryRun (some "yes") ["maybe", "y"] = some (true, 1) ∧ 1 ≤ 1) :=
  ⟨query_prompt_behavior.1 (some "yes") "YES" [] (by decide),
   query_prompt_behavior.2.1 (some "yes") "n" [] (by decide),
   query_prompt_behavior.2.2.1 [],
   by decide,
   query_prompt_behavior.2.2.2 (some "yes") ["y"] true 1 (by decide)⟩

/-- Effective number of training lines, computed identically in both
recipes: start from the actual corpus line count
(`len(corpus_sl.readlines())`); if the configured `TRAINING_LINES`
exceeds it, a warning is printed and the count is kept, otherwise the
configured value replaces it. -/
def effectiveTrainingLines (configured actualLines : Nat) : Nat :=
  if configured > actualLines then actualLines else configured

/-- Whether the clamping warning
`Warning: ...(TRAINING_LINES) > ...` is printed: exactly when the
configured `TRAINING_LINES` exceeds the actual corpus line count. -/
def trainingLinesWarning (configured actualLines : Nat) : Bool :=
  configured > actualLines

/-- The source-side tagging chain of the parallel recipe. -/
def parallelSlTagCmds (langData sl tl : String) (n : Nat) :
    List ProcSpec :=
  [["head", "-n", toString n],
   ["tr", "\\/$^@", "?"],
   ["apertium", "-d", langData, sl ++ "-" ++ tl ++ "-tagger"],
   ["apertium-pretransfer"]]

/-- The target-side tagging chain of the parallel recipe (the
reverse-direction tagger). -/
def parallelTlTagCmds (langData sl tl : String) (n : Nat) :
    List ProcSpec :=
  [["head", "-n", toString n],
   ["tr", "\\/$^@", "?"],
   ["apertium", "-d", langData, tl ++ "-" ++ sl ++ "-tagger"],
   ["apertium-pretransfer"]]

/-- The source-side tagging chain of the non-parallel recipe (no
corpus-cleaning `tr` stage there). -/
def nonParallelTagCmds (langData sl tl : String) (n : Nat) :
    List ProcSpec :=
  [["head", "-n", toString n],
   ["apertium", "-d", langData, sl ++ "-" ++ tl ++ "-tagger"],
   ["apertium-pretransfer"]]

/-- All tagging chains started by a parallel-recipe run, with the line
budget computed from the configured and actual line counts exactly as
the recipe does. -/
def parallelTaggingChains (langData sl tl : String)
    (configured actual : Nat) : List (List ProcSpec) :=
  [parallelSlTagCmds langData sl tl
     (effectiveTrainingLines configured actual),
   parallelTlTagCmds langData sl tl
     (effectiveTrainingLines configured actual)]

/-- The tagging chains started by a non-parallel-recipe run. -/
def nonParallelTaggingChains (langData sl tl : String)
    (configured actual : Nat) : List (List ProcSpec) :=
  [nonParallelTagCmds langData sl tl
     (effectiveTrainingLines configured actual)]

/-- C7: when `TRAINING_LINES` exceeds the actual corpus line count both
recipes clamp the budget to the actual count and surface the warning;
otherwise the configured value is used and no warning is surfaced; and
every tagging chain of either recipe truncates its input with
`head -n` at exactly the effective budget. -/
theorem training_lines_clamping (langData sl tl : String)
    (configured actual : Nat) :
    (actual < configured →
      effectiveTrainingLines configured actual = actual ∧
      trainingLinesWarning configured actual = true) ∧
    (¬ actual < configured →
      effectiveTrainingLines configured actual = configured ∧
      trainingLinesWarning configured actual = false) ∧
    ((parallelTaggingChains langData sl tl configured actual ++
        nonParallelTaggingChains langData sl tl configured actual).all
      (fun chain => chain.head? =
        some ["head", "-n",
          toString (effectiveTrainingLines configured actual)]) = true) := by
  refine ⟨?_, ?_, ?_⟩
  · intro h
    simp [effectiveTrainingLines, trainingLinesWarning, h]
  · intro h
    simp [effectiveTrainingLines, trainingLinesWarning, h]
  · simp [parallelTaggingChains, nonParallelTaggingChains,
      parallelSlTagCmds, parallelTlTagCmds, nonParallelTagCmds]

/-- C7 witness: clamping at a configured budget of 10 against a 3-line
corpus, and no clamping at a configured budget of 2. -/
theorem training_lines_clamping_witness :
    (effectiveTrainingLines 10 3 = 3 ∧
      trainingLinesWarning 10 3 = true) ∧
    (effectiveTrainingLines 2 3 = 2 ∧
      trainingLinesWarning 2 3 = false) :=
  ⟨(training_lines_clamping "ld" "a" "b" 10 3).1 (by decide),
   (training_lines_clamping "ld" "a" "b" 2 3).2.1 (by decide)⟩

/-- One sequential top-level step of the non-parallel recipe: a
human-readable name, the artifacts the step's process chain or
in-process routine reads and writes, the files it removes, and whether
the recipe's control flow blocks until the operating-system process or
chain behind the step has exited (`call(...)`, `pipe(...).wait()`, an
in-process routine and `os.remove` block; a bare `pipe(...)` whose
returned handle is discarded does not). -/
structure StageCall where
  name : String
  reads : List String
  writes : List String
  removes : List String
  waited : Bool
deriving DecidableEq

/-- The top-level step sequence of `non_parallel_training` after its
pre-flight gates, with one entry per `pipe`/`call`/extraction/remove
statement in program order.  Artifact keys abbreviate the local path
variables of the source (`sl_tagged`, `lines`, `clean_tagged`,
`tl_lm`, `ambig`, `multi_trimmed`, `ranked`, `lex_freq`, `ngrams`,
`patterns`, `rules`); `tl_lm_gz` is `tl_lm + '.gz'`.  The language
model is built only when the configuration supplies no `TL_MODEL`.
The two multitrans invocations discard the handle returned by `pipe`
without calling `.wait()` on it, so their `waited` field is false;
every other step blocks. -/
def npRecipeCalls (hasTlModel : Bool) : List StageCall :=
  [⟨"tag-sl", ["corpus_sl"], ["sl_tagged"], [], true⟩,
   ⟨"seq-lines", [], ["lines"], [], true⟩,
   ⟨"paste-grep", ["lines", "sl_tagged"], ["clean_tagged"], [], true⟩,
   ⟨"cut-lines", ["clean_tagged"], ["lines"], [], true⟩,
   ⟨"cut-sl-tagged", ["clean_tagged"], ["sl_tagged"], [], true⟩,
   ⟨"remove-clean-tagged", [], [], ["clean_tagged"], true⟩] ++
  (if hasTlModel then []
   else
     [⟨"build-lm", ["corpus_tl"], ["tl_lm_gz"], [], true⟩,
      ⟨"gunzip-lm", ["tl_lm_gz"], ["tl_lm"], [], true⟩,
      ⟨"remove-lm-gz", [], [], ["tl_lm_gz"], true⟩]) ++
  [⟨"multitrans-ambig", ["sl_tagged"], ["ambig"], [], false⟩,
   ⟨"multitrans-trimmed", ["sl_tagged"], ["multi_trimmed"], [], false⟩,
   ⟨"ranker", ["multi_trimmed", "tl_lm"], ["ranked"], [], true⟩,
   ⟨"extract-frac-freq", ["ambig", "ranked"], ["lex_freq"], [], true⟩,
   ⟨"count-patterns-ngrams", ["ambig", "ranked"], ["ngrams"], [], true⟩,
   ⟨"ngram-pruning-frac", ["lex_freq", "ngrams"], ["patterns"], [], true⟩,
   ⟨"ngrams-to-rules", ["patterns"], ["rules"], [], true⟩]

/-- Whether a call reads any artifact of the given list. -/
def readsAnyOf (c : StageCall) (files : List String) : Bool :=
  c.reads.any fun f => files.contains f

/-- The cross-stage ordering guarantee over a sequential call list: an
artifact written by a call is read by a later call only if the top
level blocked until the producing call's process chain had exited. -/
def producersExitedBeforeRead : List StageCall → Bool
  | [] => true
  | c :: rest =>
    (c.waited || rest.all fun d => !(readsAnyOf d c.writes)) &&
      producersExitedBeforeRead rest

/-- The target-language model path the non-parallel recipe uses from
the multitrans stage on: the caller-supplied `TL_MODEL` when the
configuration has one, otherwise the freshly built
`{CORPUS}.{SL}-{TL}.{TL}.lm`. -/
def npTlLm (tlModel : Option String) (corpus sl tl : String) : String :=
  match tlModel with
  | some p => p
  | none => corpus ++ "." ++ sl ++ "-" ++ tl ++ "." ++ tl ++ ".lm"

/-- C1: the cross-stage ordering guarantee fails on the non-parallel
recipe, with or without a caller-supplied language model: exactly the
two multitrans chains are started with their `pipe` handles discarded
and never waited on, the ranking stage reads the multi-trimmed artifact
they produce (and the extraction stages read the ambig artifact), and
waiting on every chain is exactly what restores the guarantee. -/
theorem np_multitrans_chains_not_awaited :
    (producersExitedBeforeRead (npRecipeCalls true) = false ∧
     producersExitedBeforeRead (npRecipeCalls false) = false) ∧
    ((npRecipeCalls true).filter (fun c => !c.waited) =
      [⟨"multitrans-ambig", ["sl_tagged"], ["ambig"], [], false⟩,
       ⟨"multitrans-trimmed", ["sl_tagged"], ["multi_trimmed"], [],
        false⟩]) ∧
    ((npRecipeCalls true).any fun c =>
       c.name == "ranker" && c.reads.contains "multi_trimmed") = true ∧
    ((npRecipeCalls true).any fun c =>
       c.name == "extract-frac-freq" && c.reads.contains "ambig") =
      true ∧
    producersExitedBeforeRead
      ((npRecipeCalls true).map fun c =>
        { c with waited := true }) = true := by
  decide

/-- C8: with a caller-supplied target-language model the non-parallel
recipe uses exactly that path as its language model, runs no
language-modeling toolkit step, never creates or removes the compressed
model artifact, and proceeds from the corpus-cleanup tail directly to
the first multi-translation stage. -/
theorem np_tl_model_skips_lm_build (p corpus sl tl : String) :
    npTlLm (some p) corpus sl tl = p ∧
    ((npRecipeCalls true).all fun c =>
        !(c.name == "build-lm" || c.name == "gunzip-lm" ||
          c.name == "remove-lm-gz")) = true ∧
    ((npRecipeCalls true).all fun c =>
        !(c.writes.contains "tl_lm_gz" || c.removes.contains "tl_lm_gz" ||
          c.writes.contains "tl_lm")) = true ∧
    ((npRecipeCalls true).map StageCall.name).indexOf "multitrans-ambig" =
      ((npRecipeCalls true).map StageCall.name).indexOf
        "remove-clean-tagged" + 1 ∧
    ((npRecipeCalls false).any fun c => c.name == "build-lm") = true :=
  ⟨rfl, by decide, by decide, by decide, by decide⟩

/-- An observable top-level event of the pre-flight overwrite gates. -/
inductive GateEv where
  | prompted (question : String)
  | printed (msg : String)
  | exited (code : Nat)
  | removedTree (path : String)
  | removedFile (path : String)
  | madeDir (path : String)
  | openedAppend (path : String)
deriving DecidableEq

/-- Whether a gate event mutates the filesystem. -/
def GateEv.isFsMutation : GateEv → Bool
  | .removedTree _ => true
  | .removedFile _ => true
  | .madeDir _ => true
  | .openedAppend _ => true
  | _ => false

/-- The cache-directory name `cache-{CORPUS}-{SL}-{TL}`, with `-np`
appended for non-parallel runs. -/
def cacheDirName (corpus sl tl : String) (isParallel : Bool) : String :=
  if isParallel then "cache-" ++ corpus ++ "-" ++ sl ++ "-" ++ tl
  else "cache-" ++ corpus ++ "-" ++ sl ++ "-" ++ tl ++ "-np"

/-- The cache-directory pre-flight gate of `main`: when the directory
exists the user is prompted; declining prints the manual-cleanup hint
and exits with status 0 before any mutation; accepting removes the
tree.  On every surviving path the directory is recreated and the
training log inside it is opened for append. -/
def mainCachePreflight (cacheDir : String) (dirExists answer : Bool) :
    List GateEv :=
  if dirExists then
    if answer then
      [.prompted ("Do you want to overwrite the files in '" ++
         cacheDir ++ "'"),
       .removedTree cacheDir,
       .madeDir cacheDir,
       .openedAppend (cacheDir ++ "/training.log")]
    else
      [.prompted ("Do you want to overwrite the files in '" ++
         cacheDir ++ "'"),
       .printed ("(re)move " ++ cacheDir ++
         " and re-run lexical_training.py"),
       .exited 0]
  else
    [.madeDir cacheDir,
     .openedAppend (cacheDir ++ "/training.log")]

/-- The rule-file pre-flight gate at the top of both recipes: when the
terminal rule file already exists the user is prompted; declining
prints the hint and exits with status 1 before the removal; accepting
removes the stale rule file. -/
def rulesGate (rules : String) (rulesExists answer : Bool) :
    List GateEv :=
  if rulesExists then
    if answer then
      [.prompted ("Do you want to overwrite '" ++ rules ++ "'"),
       .removedFile rules]
    else
      [.prompted ("Do you want to overwrite '" ++ rules ++ "'"),
       .printed ("(re)move " ++ rules ++
         " and re-run lexical_training.py"),
       .exited 1]
  else []

/-- C9: declining either pre-flight overwrite confirmation aborts the
run with a plain exit after the prompt and the hint message, with zero
filesystem mutations: a second run against an existing cache directory
whose overwrite is declined performs no mutation inside (or outside)
that directory, and a declined rule-file overwrite leaves the rule
file in place. -/
theorem declined_overwrite_gate_no_mutation (cacheDir rules : String) :
    ((mainCachePreflight cacheDir true false).all
        (fun e => !e.isFsMutation) = true) ∧
    ((mainCachePreflight cacheDir true false).getLast? =
        some (.exited 0)) ∧
    ((rulesGate rules true false).all
        (fun e => !e.isFsMutation) = true) ∧
    ((rulesGate rules true false).getLast? = some (.exited 1)) :=
  ⟨rfl, rfl, rfl, rfl⟩

/-- Location of a file the parallel recipe touches: inside the per-run
cache directory (paths built with `os.path.join(cache_dir, ...)`) or
directly in the current working directory (bare relative names). -/
inductive Loc where
  | cache
  | cwd
deriving DecidableEq

/-- An effect of the parallel recipe, in program order: opening a file
for writing (creating or truncating it), removing a file, running a
process chain, or running an in-process extraction routine. -/
inductive PEv where
  | openWrite (name : String) (loc : Loc)
  | remove (name : String) (loc : Loc)
  | chain (label : String)
  | extraction (label : String)
deriving DecidableEq

/-- The effect trace of the body of `parallel_training` after its
rule-file gate, one entry per `open(..., 'w')`, `os.remove`,
`pipe`/`call` chain and extraction call, in program order.  Artifact
keys abbreviate the local path variables of the source; `tmp1`, `tmp2`
and `rules` are the only ones not joined under the cache directory. -/
def parallelRunEvents : List PEv :=
  [.openWrite "sl_tagged" .cache, .chain "tag-sl",
   .openWrite "tl_tagged" .cache, .chain "tag-tl",
   .openWrite "lines" .cache, .chain "seq-lines",
   .openWrite "clean_tagged" .cache, .chain "paste-grep",
   .openWrite "lines" .cache, .chain "cut-lines",
   .openWrite "sl_tagged" .cache, .chain "cut-sl",
   .openWrite "tl_tagged" .cache, .chain "cut-tl",
   .remove "clean_tagged" .cache,
   .openWrite "tagged_merged" .cache, .chain "paste-merge",
   .openWrite "alignment" .cache, .chain "fast-align",
   .chain "unescape-sl", .chain "unescape-tl",
   .openWrite "tmp1" .cwd, .openWrite "tmp2" .cwd,
   .chain "process-tagger-tl", .chain "process-tagger-sl",
   .openWrite "clean_biltrans" .cache, .chain "process-tagger-biltrans",
   .openWrite "phrasetable" .cache, .chain "paste-phrasetable",
   .remove "tmp1" .cwd, .remove "tmp2" .cwd,
   .openWrite "candidates" .cache, .extraction "extract-sentences",
   .openWrite "freq_lex" .cache, .extraction "extract-freq-lexicon",
   .openWrite "ngrams" .cache, .extraction "ngram-count-patterns",
   .openWrite "rules" .cwd, .extraction "ngrams-to-rules"]

/-- Whether an event is an in-process extraction stage. -/
def isExtraction : PEv → Bool
  | .extraction _ => true
  | _ => false

/-- Whether an event creates a file in the working directory. -/
def isCwdCreate : PEv → Bool
  | .openWrite _ .cwd => true
  | _ => false

/-- Files remaining at a location after executing the events in order:
a file is present when it was opened for writing and not removed
afterwards. -/
def remainingAt (loc : Loc) : List PEv → List String → List String
  | [], acc => acc
  | PEv.openWrite n l :: rest, acc =>
    remainingAt loc rest
      (if l = loc then (if acc.contains n then acc else acc ++ [n])
       else acc)
  | PEv.remove n l :: rest, acc =>
    remainingAt loc rest (if l = loc then acc.erase n else acc)
  | _ :: rest, acc => remainingAt loc rest acc

/-- The actual path of each artifact key of the parallel recipe as the
source builds it: cache artifacts via `os.path.join(cache_dir, ...)`,
the scratch files and the terminal rule file as bare
working-directory names. -/
def parallelArtifactPath (corpus sl tl cacheDir : String) :
    String → String
  | "sl_tagged" => cacheDir ++ "/" ++ corpus ++ ".tagged." ++ sl
  | "tl_tagged" => cacheDir ++ "/" ++ corpus ++ ".tagged." ++ tl
  | "lines" => cacheDir ++ "/" ++ corpus ++ ".lines"
  | "clean_tagged" => cacheDir ++ "/" ++ corpus ++ ".clean_tagged"
  | "tagged_merged" =>
    cacheDir ++ "/" ++ corpus ++ ".tagged-merged." ++ sl ++ "-" ++ tl
  | "alignment" =>
    cacheDir ++ "/" ++ corpus ++ ".align." ++ sl ++ "-" ++ tl
  | "clean_biltrans" =>
    cacheDir ++ "/" ++ corpus ++ ".clean_biltrans." ++ sl ++ "-" ++ tl
  | "phrasetable" =>
    cacheDir ++ "/" ++ corpus ++ ".phrasetable." ++ sl ++ "-" ++ tl
  | "candidates" =>
    cacheDir ++ "/" ++ corpus ++ ".candidates." ++ sl ++ "-" ++ tl
  | "freq_lex" => cacheDir ++ "/" ++ corpus ++ ".lex." ++ sl ++ "-" ++ tl
  | "ngrams" => cacheDir ++ "/ngrams"
  | "tmp1" => "tmp1"
  | "tmp2" => "tmp2"
  | "rules" => corpus ++ "." ++ sl ++ "-" ++ tl ++ ".ngrams-lm-1.lrx"
  | other => other

/-- C10: the parallel recipe creates the scratch files tmp1 and tmp2 as
bare names in the working directory, outside the cache directory,
removes both before any extraction stage runs, leaves neither behind
after a completed run, and creates no working-directory file other
than tmp1, tmp2 and the terminal rule file. -/
theorem parallel_tmp_scratch_cleanup (corpus sl tl cacheDir : String) :
    (parallelRunEvents.filter isCwdCreate =
      [.openWrite "tmp1" .cwd, .openWrite "tmp2" .cwd,
       .openWrite "rules" .cwd]) ∧
    (parallelRunEvents.indexOf (.remove "tmp1" .cwd) <
       parallelRunEvents.findIdx isExtraction ∧
     parallelRunEvents.indexOf (.remove "tmp2" .cwd) <
       parallelRunEvents.findIdx isExtraction) ∧
    remainingAt Loc.cwd parallelRunEvents [] = ["rules"] ∧
    (parallelArtifactPath corpus sl tl cacheDir "tmp1" = "tmp1" ∧
     parallelArtifactPath corpus sl tl cacheDir "tmp2" = "tmp2" ∧
     parallelArtifactPath corpus sl tl cacheDir "rules" =
       corpus ++ "." ++ sl ++ "-" ++ tl ++ ".ngrams-lm-1.lrx") :=
  ⟨by decide, by decide, by decide, rfl, rfl, rfl⟩

end LexTrain
